import Mathlib

/-!
Shallow embedding of the order-creation saga of the week08 mini-ecommerce
system (order service + product service).

Source files embedded here:
* `backend/product_service/app/main.py`, endpoint `deduct_product_stock`
  (the Inventory Authority's conditional decrement);
* `backend/order_service/app/main.py`, endpoint `create_order` (the saga
  coordinator: sequential reservation loop, compensation, durable write)
  and the helper `_rollback_stock_deductions`.

Python `Decimal` arithmetic on quantities and prices is embedded as exact
rational arithmetic (`Rat`); Python ints are `Int`/`Nat`.  Database commits
can fail for environmental reasons; this is modelled by an explicit boolean
(`dbOk` for the inventory commit, `orderDbOk` for the order-ledger commit).
The remote HTTP channel between the two services is modelled by an abstract
per-call outcome (`CallResult`), and separately instantiated with the real
inventory semantics (`deductCall`) for whole-system claims.
-/

namespace Week08

/-- A row of the product table: identity, display name and stock counter
(`product_id`, `name`, `stock_quantity` in `models.Product`). Catalog fields
not touched by the reservation protocol (price, description, image url) are
omitted; the stock counter is a Python int, embedded as `Int`. -/
structure Product where
  product_id : Nat
  name : String
  stock_quantity : Int
  deriving Repr, DecidableEq

/-- The product table of the Inventory Authority, in row order. -/
abbrev Inventory := List Product

/-- Embeds `db.query(Product).filter(Product.product_id == product_id).first()`. -/
def findProduct (inv : Inventory) (pid : Nat) : Option Product :=
  inv.find? (fun p => p.product_id == pid)

/-- Writing back the updated row: every row with the updated row's id takes
the new value, all other rows are untouched. -/
def updateProduct (inv : Inventory) (p : Product) : Inventory :=
  inv.map (fun q => if q.product_id == p.product_id then p else q)

/-- The 400 detail string built by the product service when stock is
insufficient: `Insufficient stock for product '<name>'. Only <n> available.` -/
def insufficientMsg (name : String) (avail : Int) : String :=
  "Insufficient stock for product \x27" ++ name ++ "\x27. Only " ++
    toString avail ++ " available."

/-- Outcome of one conditional-decrement request, as produced by
`deduct_product_stock` in the product service. -/
inductive DeductResult where
  /-- HTTP 200 with the updated product row. -/
  | ok (updated : Product)
  /-- HTTP 404 `Product not found`. -/
  | notFound
  /-- HTTP 400 with the detail string naming the available quantity. -/
  | insufficient (detail : String)
  /-- HTTP 500 `Could not deduct stock.`: the inventory database commit
  failed and was rolled back. -/
  | commitFailed
  deriving Repr, DecidableEq

/-- True exactly on the 200 outcome of a conditional decrement. -/
def DeductResult.isOk : DeductResult → Bool
  | .ok _ => true
  | _ => false

/-- Embeds the endpoint `deduct_product_stock` of
`product_service/app/main.py`: look the product up (404 when absent), reject
with the availability detail when `stock_quantity < quantity_to_deduct`,
otherwise subtract and commit.  `dbOk` tells whether the commit succeeds; on
commit failure the transaction is rolled back (500, inventory unchanged). -/
def deduct_product_stock (inv : Inventory) (pid : Nat) (qty : Nat) (dbOk : Bool) :
    DeductResult × Inventory :=
  match findProduct inv pid with
  | none => (.notFound, inv)
  | some p =>
    if p.stock_quantity < (qty : Int) then
      (.insufficient (insufficientMsg p.name p.stock_quantity), inv)
    else
      let p' : Product := { p with stock_quantity := p.stock_quantity - (qty : Int) }
      if dbOk then (.ok p', updateProduct inv p') else (.commitFailed, inv)

/-- Stock level of a product id as currently visible to the deduct endpoint
(`first()` row of matching id), if any. -/
def getStock (inv : Inventory) (pid : Nat) : Option Int :=
  (findProduct inv pid).map Product.stock_quantity

/- ----------------------------------------------------------------- -/
/- Order service: request / record shapes                             -/
/- ----------------------------------------------------------------- -/

/-- One line of an incoming order request (`schemas.OrderItemCreate`):
product reference, quantity, and the price captured at order time. -/
structure OrderItemCreate where
  product_id : Nat
  quantity : Nat
  price_at_purchase : Rat
  deriving Repr, DecidableEq

/-- An incoming order request (`schemas.OrderCreate`). -/
structure OrderCreate where
  user_id : Nat
  shipping_address : String
  items : List OrderItemCreate
  deriving Repr, DecidableEq

/-- A persisted order row (`models.Order`), minus db-generated identity and
timestamps: user, address, computed total and lifecycle status. -/
structure OrderRecord where
  user_id : Nat
  shipping_address : String
  total_amount : Rat
  status : String
  deriving Repr, DecidableEq

/-- A persisted order line row (`models.OrderItem`), minus db-generated
identity: product reference, quantity, captured price and derived total. -/
structure OrderItemRecord where
  product_id : Nat
  quantity : Nat
  price_at_purchase : Rat
  item_total : Rat
  deriving Repr, DecidableEq

/-- The order line row built by `create_order` for one request line:
`item_total = quantity * price_at_purchase` (exact `Decimal` arithmetic). -/
def toOrderItemRecord (it : OrderItemCreate) : OrderItemRecord :=
  { product_id := it.product_id
    quantity := it.quantity
    price_at_purchase := it.price_at_purchase
    item_total := (it.quantity : Rat) * it.price_at_purchase }

/-- Outcome of one reservation HTTP call as seen by the order service's
`try` block: the call returned 2xx (`success`), `raise_for_status` raised an
`httpx.HTTPStatusError` carrying a status code and the response's JSON
detail (`httpError`), the request failed on the wire with an
`httpx.RequestError` (`netError`), or some other unexpected exception was
raised (`unexpected`). -/
inductive CallResult where
  | success
  | httpError (code : Nat) (detail : String)
  | netError (msg : String)
  | unexpected (msg : String)
  deriving Repr, DecidableEq

/-- Final HTTP-level outcome of `create_order`. -/
inductive SagaOutcome where
  /-- 201 with the created order and its line items. -/
  | created (ord : OrderRecord) (its : List OrderItemRecord)
  /-- 400 with a detail string. -/
  | badRequest (detail : String)
  /-- 503 with a detail string. -/
  | unavailable (detail : String)
  /-- 500 with a detail string. -/
  | internalError (detail : String)
  deriving Repr, DecidableEq

/-- True exactly on the 500 outcome. -/
def SagaOutcome.isInternalError : SagaOutcome → Bool
  | .internalError _ => true
  | _ => false

/-- Observable result of one execution of `create_order`: the indices (in
request order) of the lines for which a deduct call was issued, the
(product id, quantity) pairs recorded by the compensation routine, the
order and line rows that were durably committed (at most one order per
call, by construction of the endpoint), and the HTTP outcome. -/
structure SagaResult where
  calls : List Nat
  compLog : List (Nat × Nat)
  persisted : Option (OrderRecord × List OrderItemRecord)
  outcome : SagaOutcome
  deriving Repr, DecidableEq

/-- Embeds `_rollback_stock_deductions` of `order_service/app/main.py`: for
each successfully deducted item it only records the product id and quantity
(a log line flagging manual adjustment); it performs no call to the product
service and touches no state, so its value is just the worklist. -/
def _rollback_stock_deductions (items : List OrderItemCreate) : List (Nat × Nat) :=
  items.map (fun it => (it.product_id, it.quantity))

/-- The `error_detail` string computed in the `httpx.HTTPStatusError`
handler of `create_order`: 404 and 400 are mapped to specific texts, every
other status code to `Unknown error during stock deduction.`. -/
def httpErrorDetail (pid : Nat) (code : Nat) (detail : String) : String :=
  if code = 404 then "Product " ++ toString pid ++ " not found."
  else if code = 400 then detail
  else "Unknown error during stock deduction."

/-- The 503 detail built in the `httpx.RequestError` handler. -/
def unavailableMsg (e : String) : String :=
  "Product Service is currently unavailable. Please try again later. Error: " ++ e

/-- The 500 detail built in the generic `except Exception` handler of the
reservation loop. -/
def unexpectedMsg (e : String) : String :=
  "An unexpected error occurred during order creation: " ++ e

/-- Result of the reservation loop: either every line was deducted
(`allOk`, with the issued call indices and the successfully deducted
items), or the loop aborted on some line (`aborted`, with the issued call
indices, the compensation log and the HTTP outcome raised). -/
inductive LoopResult where
  | allOk (calls : List Nat) (succeeded : List OrderItemCreate)
  | aborted (calls : List Nat) (compLog : List (Nat × Nat)) (outcome : SagaOutcome)
  deriving Repr, DecidableEq

/-- Embeds the `for item in order.items` reservation loop of `create_order`
(lines 116-179): one conditional-decrement call per line, in request order;
on success the item is appended to `successfully_deducted_items`; on the
first failure `_rollback_stock_deductions` runs over that list and the loop
aborts with the corresponding `HTTPException`, issuing no further calls.
The remote call is abstracted by `call idx s item`, which also threads a
state `s` (the remote inventory for the composed system, nothing for the
abstract transport). -/
def reserveLoop {S : Type} (call : Nat → S → OrderItemCreate → CallResult × S) :
    List OrderItemCreate → Nat → List OrderItemCreate → List Nat → S → LoopResult × S
  | [], _, succeeded, calls, s => (.allOk calls succeeded, s)
  | item :: rest, idx, succeeded, calls, s =>
    match call idx s item with
    | (.success, s') =>
        reserveLoop call rest (idx + 1) (succeeded ++ [item]) (calls ++ [idx]) s'
    | (.httpError code detail, s') =>
        (.aborted (calls ++ [idx]) (_rollback_stock_deductions succeeded)
          (.badRequest ("Failed to deduct stock for product " ++ toString item.product_id
            ++ ": " ++ httpErrorDetail item.product_id code detail)), s')
    | (.netError msg, s') =>
        (.aborted (calls ++ [idx]) (_rollback_stock_deductions succeeded)
          (.unavailable (unavailableMsg msg)), s')
    | (.unexpected msg, s') =>
        (.aborted (calls ++ [idx]) (_rollback_stock_deductions succeeded)
          (.internalError (unexpectedMsg msg)), s')

/-- Embeds the endpoint `create_order` of `order_service/app/main.py`:
reject an empty item list with 400 before any call; run the reservation
loop; on full success compute `total_amount` as the sum of
`quantity * price_at_purchase` over the request lines, build the order row
with status `pending`, build one `OrderItem` row per request line, set the
status to `confirmed` and commit order plus lines as one transaction
(`orderDbOk` tells whether that commit succeeds; on failure the transaction
is rolled back and a 500 is raised). -/
def create_order {S : Type} (call : Nat → S → OrderItemCreate → CallResult × S)
    (ord : OrderCreate) (orderDbOk : Bool) (s : S) : SagaResult × S :=
  if ord.items.isEmpty then
    ({ calls := [], compLog := [], persisted := none,
       outcome := .badRequest "Order must contain at least one item." }, s)
  else
    match reserveLoop call ord.items 0 [] [] s with
    | (.aborted calls log out, s') =>
        ({ calls := calls, compLog := log, persisted := none, outcome := out }, s')
    | (.allOk calls _, s') =>
        let total : Rat :=
          (ord.items.map (fun it => (it.quantity : Rat) * it.price_at_purchase)).sum
        let db_order : OrderRecord :=
          { user_id := ord.user_id, shipping_address := ord.shipping_address,
            total_amount := total, status := "pending" }
        let db_items : List OrderItemRecord := ord.items.map toOrderItemRecord
        if orderDbOk then
          let committed : OrderRecord := { db_order with status := "confirmed" }
          ({ calls := calls, compLog := [], persisted := some (committed, db_items),
             outcome := .created committed db_items }, s')
        else
          ({ calls := calls, compLog := [], persisted := none,
             outcome := .internalError
               "Order created but failed to save to database. Manual intervention required." }, s')

/-- An abstract transport: the outcome of the call for line `idx` is given
by an oracle `t`, independent of any threaded state. -/
def httpTransport (t : Nat → CallResult) : Nat → Unit → OrderItemCreate → CallResult × Unit :=
  fun idx _ _ => (t idx, ())

/-- `create_order` run against an abstract per-line transport oracle. -/
def create_order_net (t : Nat → CallResult) (ord : OrderCreate) (orderDbOk : Bool) :
    SagaResult :=
  (create_order (httpTransport t) ord orderDbOk ()).1

/-- The real wire between the two services: a reservation call for an item
executes `deduct_product_stock` against the current inventory (with a
healthy inventory database) and maps its result to what the order service's
`try` block observes: 200 passes `raise_for_status`, 404 and 400 raise
`httpx.HTTPStatusError` with that code (for 400, the JSON body's detail is
the availability message), 500 raises `httpx.HTTPStatusError` with code
500. -/
def deductCall : Nat → Inventory → OrderItemCreate → CallResult × Inventory :=
  fun _ inv item =>
    match deduct_product_stock inv item.product_id item.quantity true with
    | (.ok _, inv') => (.success, inv')
    | (.notFound, inv') => (.httpError 404 "Product not found", inv')
    | (.insufficient detail, inv') => (.httpError 400 detail, inv')
    | (.commitFailed, inv') => (.httpError 500 "Could not deduct stock.", inv')

/-- The composed two-service system: `create_order` where every reservation
call really executes the Inventory Authority's conditional decrement,
threading the inventory state. -/
def create_order_sys (ord : OrderCreate) (orderDbOk : Bool) (inv : Inventory) :
    SagaResult × Inventory :=
  create_order deductCall ord orderDbOk inv

/-- Sequential success of every line's conditional decrement against an
inventory: line 1 deducts from `inv`, line 2 from the updated inventory,
and so on. -/
def allSucceedB (inv : Inventory) : List OrderItemCreate → Bool
  | [] => true
  | it :: rest =>
    match deduct_product_stock inv it.product_id it.quantity true with
    | (.ok _, inv') => allSucceedB inv' rest
    | _ => false

/-- The inventory after executing the conditional decrements of a list of
lines in order (failed calls leave the inventory unchanged). -/
def runDeducts (inv : Inventory) : List OrderItemCreate → Inventory
  | [] => inv
  | it :: rest => runDeducts (deduct_product_stock inv it.product_id it.quantity true).2 rest

/-- Total quantity a list of order lines requests for one product id. -/
def qtyOf (items : List OrderItemCreate) (pid : Nat) : Int :=
  ((items.filter (fun it => it.product_id == pid)).map (fun it => (it.quantity : Int))).sum

/-- Embeds the endpoint `update_order_status` of
`order_service/app/main.py` on a ledger of (order id, order row) pairs:
404 when the id is absent, otherwise the status field is overwritten with
the caller-supplied string and committed. -/
def update_order_status (orders : List (Nat × OrderRecord)) (oid : Nat)
    (new_status : String) : Except String (List (Nat × OrderRecord)) :=
  match orders.find? (fun x => x.1 == oid) with
  | none => .error "Order not found"
  | some _ =>
      .ok (orders.map (fun x => if x.1 == oid then (x.1, { x.2 with status := new_status }) else x))

/-- The `HTTPException` the reservation loop raises when the call for a
line with product id `pid` comes back as `r`; `none` when the call
succeeded and the loop continues. -/
def abortOutcome (pid : Nat) : CallResult → Option SagaOutcome
  | .success => none
  | .httpError code detail =>
      some (.badRequest ("Failed to deduct stock for product " ++ toString pid
        ++ ": " ++ httpErrorDetail pid code detail))
  | .netError msg => some (.unavailable (unavailableMsg msg))
  | .unexpected msg => some (.internalError (unexpectedMsg msg))

/-- Matching of a pattern against the front of a character list. -/
def leadsWith : List Char → List Char → Bool
  | [], _ => true
  | _ :: _, [] => false
  | c :: cs, d :: ds => c == d && leadsWith cs ds

/-- Occurrence of a pattern anywhere in a character list. -/
def hasSub (pat : List Char) : List Char → Bool
  | [] => leadsWith pat []
  | c :: rest => leadsWith pat (c :: rest) || hasSub pat rest

/-- A transport oracle whose first call succeeds and whose second call
comes back 400 with an insufficiency detail. -/
def insufficientTransport : Nat → CallResult := fun n =>
  if n = 0 then .success else .httpError 400 "Only 1 available."

/-- A two-line order request: 2 units of product 1 at 10 each, then 5 units
of product 2 at 3 each. -/
def twoLineOrder : OrderCreate :=
  { user_id := 1, shipping_address := "addr",
    items := [{ product_id := 1, quantity := 2, price_at_purchase := 10 },
              { product_id := 2, quantity := 5, price_at_purchase := 3 }] }

/-- A transport oracle whose very first call fails with a connection
refusal. -/
def refusedTransport : Nat → CallResult := fun _ => .netError "connection refused"

/-- A transport oracle on which every reservation call succeeds. -/
def successTransport : Nat → CallResult := fun _ => .success

/-- A transport oracle whose first call succeeds and whose second call
comes back with an unexpected HTTP status (500). -/
def status500Transport : Nat → CallResult := fun n =>
  if n = 0 then .success else .httpError 500 "boom"

/-- A transport oracle whose first call succeeds and whose second call
raises a non-httpx exception. -/
def crashTransport : Nat → CallResult := fun n =>
  if n = 0 then .success else .unexpected "KeyError"

/-- A one-product catalog: product 1 ("A") with 5 units in stock. -/
def productA : Product := { product_id := 1, name := "A", stock_quantity := 5 }

/-- A catalog holding just `productA`. -/
def oneProductInv : Inventory := [productA]

/-- A two-product catalog with ample stock for `twoLineOrder`. -/
def twoProductInv : Inventory :=
  [{ product_id := 1, name := "A", stock_quantity := 5 },
   { product_id := 2, name := "B", stock_quantity := 9 }]

/-- A two-product catalog where product 2 has only 1 unit left, so the
second line of `twoLineOrder` (5 units of product 2) cannot be served. -/
def lowStockInv : Inventory :=
  [{ product_id := 1, name := "A", stock_quantity := 5 },
   { product_id := 2, name := "B", stock_quantity := 1 }]

/-- When the transport oracle answers success for every line, the
reservation loop issues one call per line, in request order, and returns
every line as successfully deducted. -/
theorem reserveLoop_net_allOk (t : Nat → CallResult) (pending : List OrderItemCreate) :
    ∀ (idx : Nat) (succeeded : List OrderItemCreate) (calls : List Nat),
      (∀ j, j < pending.length → t (idx + j) = .success) →
      reserveLoop (httpTransport t) pending idx succeeded calls () =
        (.allOk (calls ++ List.range' idx pending.length) (succeeded ++ pending), ()) := by
  induction pending with
  | nil => intro idx succeeded calls _; simp [reserveLoop]
  | cons item rest ih =>
      intro idx succeeded calls h
      have h0 : t idx = .success := by simpa using h 0 (Nat.succ_pos _)
      have hrec := ih (idx + 1) (succeeded ++ [item]) (calls ++ [idx])
        (fun j hj => by
          have := h (j + 1) (by simpa using Nat.succ_lt_succ hj)
          simpa [Nat.add_assoc, Nat.add_comm 1 j] using this)
      simp only [reserveLoop, httpTransport, h0]
      rw [hrec]
      simp [List.range'_succ, List.append_assoc]

/-- When the transport oracle answers success for the first `i` lines and
the call for line `i` fails, the reservation loop issues calls for exactly
lines `0..i`, compensates over the first `i` lines, and aborts with the
exception determined by the failing call. -/
theorem reserveLoop_net_abort (t : Nat → CallResult) (pending : List OrderItemCreate) :
    ∀ (i idx : Nat) (succeeded : List OrderItemCreate) (calls : List Nat)
      (hi : i < pending.length) (out : SagaOutcome),
      (∀ j, j < i → t (idx + j) = .success) →
      abortOutcome (pending.get ⟨i, hi⟩).product_id (t (idx + i)) = some out →
      reserveLoop (httpTransport t) pending idx succeeded calls () =
        (.aborted (calls ++ List.range' idx (i + 1))
          (_rollback_stock_deductions (succeeded ++ pending.take i)) out, ()) := by
  induction pending with
  | nil => intro i idx succeeded calls hi; exact absurd hi (by simp)
  | cons item rest ih =>
      intro i idx succeeded calls hi out hsucc hout
      cases i with
      | zero =>
          simp only [List.get] at hout
          cases hcall : t idx with
          | success => rw [Nat.add_zero, hcall] at hout; simp [abortOutcome] at hout
          | httpError code detail =>
              rw [Nat.add_zero, hcall] at hout
              simp only [abortOutcome, Option.some.injEq] at hout
              simp [reserveLoop, httpTransport, hcall, List.range'_succ, hout]
          | netError msg =>
              rw [Nat.add_zero, hcall] at hout
              simp only [abortOutcome, Option.some.injEq] at hout
              simp [reserveLoop, httpTransport, hcall, List.range'_succ, hout]
          | unexpected msg =>
              rw [Nat.add_zero, hcall] at hout
              simp only [abortOutcome, Option.some.injEq] at hout
              simp [reserveLoop, httpTransport, hcall, List.range'_succ, hout]
      | succ i' =>
          have h0 : t idx = .success := by simpa using hsucc 0 (Nat.succ_pos _)
          have hrec := ih i' (idx + 1) (succeeded ++ [item]) (calls ++ [idx])
            (by simpa using Nat.lt_of_succ_lt_succ hi) out
            (fun j hj => by
              have := hsucc (j + 1) (Nat.succ_lt_succ hj)
              simpa [Nat.add_assoc, Nat.add_comm 1 j] using this)
            (by
              have : idx + 1 + i' = idx + (i' + 1) := by omega
              rw [this]
              simpa using hout)
          simp only [reserveLoop, httpTransport, h0]
          rw [hrec]
          simp [List.range'_succ, List.append_assoc]

/-- When the first `i` reservation calls succeed and call `i` fails, the
whole endpoint issues exactly the calls `0..i`, compensates over the first
`i` request lines, persists nothing and answers with the exception of the
failing call. -/
theorem create_order_net_abort (t : Nat → CallResult) (ord : OrderCreate)
    (orderDbOk : Bool) (i : Nat) (hi : i < ord.items.length) (out : SagaOutcome)
    (hsucc : ∀ j, j < i → t j = .success)
    (hout : abortOutcome ((ord.items.get ⟨i, hi⟩)).product_id (t i) = some out) :
    create_order_net t ord orderDbOk =
      { calls := List.range (i + 1),
        compLog := _rollback_stock_deductions (ord.items.take i),
        persisted := none, outcome := out } := by
  have hne : ord.items.isEmpty = false := by
    cases h : ord.items
    · rw [h] at hi; simp at hi
    · simp [h]
  have habort := reserveLoop_net_abort t ord.items i 0 [] [] hi out
    (fun j hj => by rw [Nat.zero_add]; exact hsucc j hj)
    (by rw [Nat.zero_add]; exact hout)
  simp only [create_order_net, create_order, hne, Bool.false_eq_true, if_false, habort]
  simp [List.range_eq_range']

/-- C4: an order whose item list is empty is rejected with HTTP 400
(`Order must contain at least one item.`) before any reservation call:
zero deduct calls are issued, nothing is persisted, no compensation is
logged, and the threaded remote state comes back unchanged. -/
theorem create_order_empty_rejected {S : Type}
    (call : Nat → S → OrderItemCreate → CallResult × S)
    (ord : OrderCreate) (orderDbOk : Bool) (s : S) (h : ord.items = []) :
    create_order call ord orderDbOk s =
      ({ calls := [], compLog := [], persisted := none,
         outcome := .badRequest "Order must contain at least one item." }, s) := by
  simp [create_order, h]

theorem create_order_empty_rejected_witness :
    create_order deductCall
        { user_id := 7, shipping_address := "somewhere", items := [] } true
        [{ product_id := 1, name := "widget", stock_quantity := 5 }] =
      ({ calls := [], compLog := [], persisted := none,
         outcome := .badRequest "Order must contain at least one item." },
       [{ product_id := 1, name := "widget", stock_quantity := 5 }]) :=
  create_order_empty_rejected deductCall _ true _ rfl

/-- C2: when the reservation call of line `k = i + 1` (with `k > 1`, i.e.
`0 < i` in 0-indexed form) fails with insufficient stock (HTTP 400 carrying
the authority's detail), the loop has issued deduct calls for exactly lines
`0..i` in request order, the strictly earlier lines `0..i-1` form the
compensation worklist in request order, no call is issued for any later
line, and no order or order items are persisted. -/
theorem create_order_insufficient_midway_aborts (t : Nat → CallResult)
    (ord : OrderCreate) (orderDbOk : Bool) (i : Nat) (detail : String)
    (hi : i < ord.items.length) (_hpos : 0 < i)
    (hsucc : ∀ j, j < i → t j = .success)
    (hfail : t i = .httpError 400 detail) :
    create_order_net t ord orderDbOk =
      { calls := List.range (i + 1),
        compLog := _rollback_stock_deductions (ord.items.take i),
        persisted := none,
        outcome := .badRequest ("Failed to deduct stock for product "
          ++ toString ((ord.items.get ⟨i, hi⟩)).product_id ++ ": " ++ detail) } :=
  create_order_net_abort t ord orderDbOk i hi _ hsucc
    (by rw [hfail]; simp [abortOutcome, httpErrorDetail])

theorem create_order_insufficient_midway_aborts_witness :
    create_order_net insufficientTransport twoLineOrder true =
      { calls := [0, 1], compLog := [(1, 2)], persisted := none,
        outcome := .badRequest
          "Failed to deduct stock for product 2: Only 1 available." } :=
  (create_order_insufficient_midway_aborts insufficientTransport twoLineOrder true 1
    "Only 1 available." (by decide) (by decide) (by decide) (by decide)).trans (by decide)

/-- C7: when the reservation call of line `i` fails on the wire
(`httpx.RequestError`: network error, timeout, unreachable dependency)
after the first `i` lines succeeded, the saga compensates over exactly that
prefix, persists no order, issues each of the calls `0..i` exactly once (no
retry of any call within the saga), and answers 503 service-unavailable;
when the very first line fails this way the compensation worklist is
empty. -/
theorem create_order_network_failure_aborts (t : Nat → CallResult)
    (ord : OrderCreate) (orderDbOk : Bool) (i : Nat) (msg : String)
    (hi : i < ord.items.length)
    (hsucc : ∀ j, j < i → t j = .success)
    (hfail : t i = .netError msg) :
    create_order_net t ord orderDbOk =
      { calls := List.range (i + 1),
        compLog := _rollback_stock_deductions (ord.items.take i),
        persisted := none,
        outcome := .unavailable (unavailableMsg msg) }
    ∧ (List.range (i + 1)).Nodup
    ∧ (i = 0 → _rollback_stock_deductions (ord.items.take i) = []) := by
  refine ⟨create_order_net_abort t ord orderDbOk i hi _ hsucc
      (by rw [hfail]; simp [abortOutcome]), List.nodup_range _, ?_⟩
  rintro rfl
  simp [_rollback_stock_deductions]

theorem create_order_network_failure_aborts_witness :
    (create_order_net refusedTransport twoLineOrder true =
      { calls := [0], compLog := [], persisted := none,
        outcome := .unavailable
          ("Product Service is currently unavailable. Please try again later. Error: "
            ++ "connection refused") })
    ∧ [0].Nodup := by
  have h := create_order_network_failure_aborts refusedTransport twoLineOrder true 0
    "connection refused" (by decide) (by decide) (by decide)
  exact ⟨h.1.trans (by decide), by decide⟩

/-- C6 (counterexample to the claim as stated): an unexpected HTTP status
(500) from the Inventory Authority on the second line is caught by the
`httpx.HTTPStatusError` handler, so the order is rejected as a business
rejection (HTTP 400 with detail `Unknown error during stock deduction.`),
not as an internal error (HTTP 500); compensation over the succeeded
prefix does run. -/
theorem create_order_unexpected_status_is_400_cex :
    (create_order_net status500Transport twoLineOrder true).outcome =
        .badRequest "Failed to deduct stock for product 2: Unknown error during stock deduction."
    ∧ (create_order_net status500Transport twoLineOrder true).outcome.isInternalError = false
    ∧ (create_order_net status500Transport twoLineOrder true).compLog = [(1, 2)] :=
  ⟨by decide, by decide, by decide⟩

/-- C6 (amended): a reservation outcome that is an unexpected exception
(neither an `httpx.HTTPStatusError` nor an `httpx.RequestError`) triggers
compensation over the succeeded prefix and an internal-error rejection
(HTTP 500); an unexpected HTTP status, however, is classified with the
HTTP-status failures: compensation runs and the order is rejected 400 with
the generic detail `Unknown error during stock deduction.`. -/
theorem create_order_unexpected_outcome_classified :
    (∀ (t : Nat → CallResult) (ord : OrderCreate) (orderDbOk : Bool)
        (i : Nat) (msg : String) (_hi : i < ord.items.length),
        (∀ j, j < i → t j = .success) → t i = .unexpected msg →
        create_order_net t ord orderDbOk =
          { calls := List.range (i + 1),
            compLog := _rollback_stock_deductions (ord.items.take i),
            persisted := none, outcome := .internalError (unexpectedMsg msg) })
    ∧ (∀ (t : Nat → CallResult) (ord : OrderCreate) (orderDbOk : Bool)
        (i code : Nat) (detail : String) (hi : i < ord.items.length),
        (∀ j, j < i → t j = .success) → t i = .httpError code detail →
        code ≠ 404 → code ≠ 400 →
        create_order_net t ord orderDbOk =
          { calls := List.range (i + 1),
            compLog := _rollback_stock_deductions (ord.items.take i),
            persisted := none,
            outcome := .badRequest ("Failed to deduct stock for product "
              ++ toString ((ord.items.get ⟨i, hi⟩)).product_id
              ++ ": " ++ "Unknown error during stock deduction.") }) := by
  constructor
  · intro t ord orderDbOk i msg hi hsucc hfail
    exact create_order_net_abort t ord orderDbOk i hi _ hsucc
      (by rw [hfail]; simp [abortOutcome])
  · intro t ord orderDbOk i code detail hi hsucc hfail h404 h400
    exact create_order_net_abort t ord orderDbOk i hi _ hsucc
      (by rw [hfail]; simp [abortOutcome, httpErrorDetail, h404, h400])

theorem create_order_unexpected_outcome_classified_witness :
    (create_order_net crashTransport twoLineOrder true =
      { calls := [0, 1], compLog := [(1, 2)], persisted := none,
        outcome := .internalError
          "An unexpected error occurred during order creation: KeyError" })
    ∧ (create_order_net status500Transport twoLineOrder true =
      { calls := [0, 1], compLog := [(1, 2)], persisted := none,
        outcome := .badRequest
          "Failed to deduct stock for product 2: Unknown error during stock deduction." }) := by
  have h1 := create_order_unexpected_outcome_classified.1 crashTransport twoLineOrder true 1
    "KeyError" (by decide) (by decide) (by decide)
  have h2 := create_order_unexpected_outcome_classified.2 status500Transport twoLineOrder true 1
    500 "boom" (by decide) (by decide) (by decide) (by decide) (by decide)
  exact ⟨h1.trans (by decide), h2.trans (by decide)⟩

/-- C8 (counterexample to the claim as stated): when every reservation
succeeds and the order-ledger commit then fails, the caller receives the
exact message `Order created but failed to save to database. Manual
intervention required.` — a message that contains neither the word stem
`inventor` nor the stem `decrement`, so it does not explicitly state that
inventory has already been decremented; nothing is persisted. -/
theorem create_order_dbfail_message_cex :
    (create_order_net successTransport twoLineOrder false).outcome =
        .internalError
          "Order created but failed to save to database. Manual intervention required."
    ∧ hasSub "inventor".toList
        "Order created but failed to save to database. Manual intervention required.".toList
        = false
    ∧ hasSub "decrement".toList
        "Order created but failed to save to database. Manual intervention required.".toList
        = false
    ∧ (create_order_net successTransport twoLineOrder false).persisted = none :=
  ⟨by decide, by decide, by decide, by decide⟩

/-- C8 (amended): when every reservation succeeds and the durable write of
the order then fails, the ledger transaction is rolled back (no order or
items persisted, nothing extra logged for compensation) and the caller
receives a server error (HTTP 500) whose fixed message flags that manual
intervention is required — a class distinct from the 400 validation
rejections — although the message does not explicitly mention that
inventory has already been decremented. -/
theorem create_order_dbfail_reports_server_error (t : Nat → CallResult)
    (ord : OrderCreate) (hne : ord.items ≠ [])
    (hsucc : ∀ j, j < ord.items.length → t j = .success) :
    create_order_net t ord false =
      { calls := List.range ord.items.length,
        compLog := [], persisted := none,
        outcome := .internalError
          "Order created but failed to save to database. Manual intervention required." } := by
  have hloop := reserveLoop_net_allOk t ord.items 0 [] []
    (fun j hj => by rw [Nat.zero_add]; exact hsucc j hj)
  have hne' : ord.items.isEmpty = false := by
    cases h : ord.items
    · exact absurd h hne
    · simp [h]
  simp only [create_order_net, create_order, hne', Bool.false_eq_true, if_false, hloop]
  simp [List.range_eq_range']

theorem create_order_dbfail_reports_server_error_witness :
    create_order_net successTransport twoLineOrder false =
      { calls := [0, 1], compLog := [], persisted := none,
        outcome := .internalError
          "Order created but failed to save to database. Manual intervention required." } :=
  (create_order_dbfail_reports_server_error successTransport twoLineOrder
    (by decide) (by decide)).trans (by decide)

/-- The row found by a lookup carries the looked-up product id. -/
theorem findProduct_eq_pid (inv : Inventory) (pid : Nat) (p : Product)
    (h : findProduct inv pid = some p) : p.product_id = pid := by
  have := List.find?_some h
  simpa using this

/-- Writing back an updated row changes exactly the stock visible under the
updated row's id, leaving every other id's visible stock unchanged. -/
theorem getStock_updateProduct (inv : Inventory) (p' : Product) (x : Nat) :
    getStock (updateProduct inv p') x =
      (getStock inv x).map (fun s => if x = p'.product_id then p'.stock_quantity else s) := by
  induction inv with
  | nil => rfl
  | cons q rest ih =>
      have hcons : updateProduct (q :: rest) p' =
          (if q.product_id == p'.product_id then p' else q) :: updateProduct rest p' := rfl
      rw [hcons]
      by_cases hq : q.product_id = p'.product_id
      · by_cases hx : p'.product_id = x
        · have h1 : (q.product_id == x) = true := by simp [hq, hx]
          have h2 : (p'.product_id == x) = true := by simp [hx]
          simp [getStock, findProduct, List.find?_cons, hq, h1, h2, hx.symm]
        · have h1 : (q.product_id == x) = false := by
            simp only [beq_eq_false_iff_ne]; rw [hq]; exact hx
          have h2 : (p'.product_id == x) = false := by
            simp only [beq_eq_false_iff_ne]; exact hx
          simp only [getStock, findProduct, List.find?_cons] at ih ⊢
          simp [hq, h1, h2, ih]
      · by_cases hqx : q.product_id = x
        · have h1 : (q.product_id == x) = true := by simp [hqx]
          have hxp : ¬ x = p'.product_id := fun h => hq (hqx.trans h)
          have hqb : (q.product_id == p'.product_id) = false := by
            simp only [beq_eq_false_iff_ne]; exact hq
          simp [getStock, findProduct, List.find?_cons, hqb, h1, hxp]
        · have h1 : (q.product_id == x) = false := by
            simp only [beq_eq_false_iff_ne]; exact hqx
          have hqb : (q.product_id == p'.product_id) = false := by
            simp only [beq_eq_false_iff_ne]; exact hq
          simp only [getStock, findProduct, List.find?_cons] at ih ⊢
          simp [hqb, h1, ih]

/-- A successful conditional decrement lowers the stock visible under the
requested product id by the requested quantity and leaves every other
product's visible stock unchanged. -/
theorem getStock_deduct_ok (inv : Inventory) (pid qty : Nat) (p' : Product)
    (inv' : Inventory)
    (h : deduct_product_stock inv pid qty true = (.ok p', inv')) :
    ∀ x s0, getStock inv x = some s0 →
      getStock inv' x = some (if x = pid then s0 - (qty : Int) else s0) := by
  intro x s0 hx
  cases hfp : findProduct inv pid with
  | none => simp only [deduct_product_stock, hfp] at h; exact absurd h (by simp)
  | some p =>
      simp only [deduct_product_stock, hfp] at h
      by_cases hlt : p.stock_quantity < (qty : Int)
      · rw [if_pos hlt] at h; exact absurd h (by simp)
      · rw [if_neg hlt, if_pos trivial] at h
        rw [Prod.mk.injEq] at h
        obtain ⟨hp', hinv'⟩ := h
        have hpid : p.product_id = pid := findProduct_eq_pid inv pid p hfp
        rw [← hinv', getStock_updateProduct, hx]
        by_cases hxe : x = pid
        · subst hxe
          have hs0 : s0 = p.stock_quantity := by
            rw [getStock, hfp] at hx
            simpa using hx.symm
          simp [hpid, hs0]
        · simp [hpid, hxe]

/-- A conditional decrement that does not return 200 leaves the inventory
unchanged. -/
theorem deduct_not_ok_frame (inv : Inventory) (pid qty : Nat) (dbOk : Bool)
    (h : (deduct_product_stock inv pid qty dbOk).1.isOk = false) :
    (deduct_product_stock inv pid qty dbOk).2 = inv := by
  cases hfp : findProduct inv pid with
  | none => simp [deduct_product_stock, hfp]
  | some p =>
      by_cases hlt : p.stock_quantity < (qty : Int)
      · simp [deduct_product_stock, hfp, hlt]
      · cases dbOk with
        | false => simp [deduct_product_stock, hfp, hlt]
        | true => simp [deduct_product_stock, hfp, hlt, DeductResult.isOk] at h

/-- Requested total of a product over a cons cell. -/
theorem qtyOf_cons (it : OrderItemCreate) (rest : List OrderItemCreate) (x : Nat) :
    qtyOf (it :: rest) x =
      (if it.product_id = x then (it.quantity : Int) else 0) + qtyOf rest x := by
  by_cases h : it.product_id = x <;> simp [qtyOf, List.filter_cons, h]

/-- Running a list of conditional decrements that all succeed lowers each
product's visible stock by exactly the total quantity those lines request
for it. -/
theorem getStock_runDeducts (items : List OrderItemCreate) :
    ∀ (inv : Inventory), allSucceedB inv items = true →
      ∀ x s0, getStock inv x = some s0 →
        getStock (runDeducts inv items) x = some (s0 - qtyOf items x) := by
  induction items with
  | nil => intro inv _ x s0 h; simpa [runDeducts, qtyOf] using h
  | cons it rest ih =>
      intro inv hall x s0 h
      cases hd : deduct_product_stock inv it.product_id it.quantity true with
      | mk r inv1 =>
          cases r with
          | ok p' =>
              have hall' : allSucceedB inv1 rest = true := by
                rw [allSucceedB, hd] at hall
                exact hall
              have h1 := getStock_deduct_ok inv it.product_id it.quantity p' inv1 hd x s0 h
              have h2 := ih inv1 hall' x _ h1
              rw [runDeducts, hd]
              rw [h2, qtyOf_cons]
              by_cases hx : x = it.product_id
              · rw [if_pos hx, if_pos hx.symm]
                congr 1
                omega
              · rw [if_neg hx, if_neg (fun hh => hx hh.symm)]
                congr 1
                omega
          | notFound => rw [allSucceedB, hd] at hall; exact absurd hall (by simp)
          | insufficient d => rw [allSucceedB, hd] at hall; exact absurd hall (by simp)
          | commitFailed => rw [allSucceedB, hd] at hall; exact absurd hall (by simp)

/-- When every line's conditional decrement succeeds sequentially, the
reservation loop against the real inventory issues one call per line in
request order, reports every line as deducted, and leaves the inventory
produced by exactly those decrements. -/
theorem reserveLoop_sys_allOk (pending : List OrderItemCreate) :
    ∀ (inv : Inventory) (idx : Nat) (succeeded : List OrderItemCreate) (calls : List Nat),
      allSucceedB inv pending = true →
      reserveLoop deductCall pending idx succeeded calls inv =
        (.allOk (calls ++ List.range' idx pending.length) (succeeded ++ pending),
          runDeducts inv pending) := by
  induction pending with
  | nil => intro inv idx succeeded calls _; simp [reserveLoop, runDeducts]
  | cons item rest ih =>
      intro inv idx succeeded calls hall
      cases hd : deduct_product_stock inv item.product_id item.quantity true with
      | mk r inv1 =>
          cases r with
          | ok p' =>
              have hall' : allSucceedB inv1 rest = true := by
                rw [allSucceedB, hd] at hall; exact hall
              have hcall : deductCall idx inv item = (.success, inv1) := by
                simp [deductCall, hd]
              simp only [reserveLoop, hcall]
              rw [ih inv1 (idx + 1) (succeeded ++ [item]) (calls ++ [idx]) hall']
              rw [runDeducts, hd]
              simp [List.range'_succ, List.append_assoc]
          | notFound => rw [allSucceedB, hd] at hall; exact absurd hall (by simp)
          | insufficient d => rw [allSucceedB, hd] at hall; exact absurd hall (by simp)
          | commitFailed => rw [allSucceedB, hd] at hall; exact absurd hall (by simp)

/-- When the first `i` conditional decrements succeed sequentially and the
decrement of line `i` then fails, the reservation loop against the real
inventory issues calls for exactly lines `0..i`, compensates over the first
`i` lines, aborts, and leaves the inventory produced by the `i` successful
decrements alone: the failing call and the compensation change no stock. -/
theorem reserveLoop_sys_abort (pending : List OrderItemCreate) :
    ∀ (inv : Inventory) (idx : Nat) (succeeded : List OrderItemCreate) (calls : List Nat)
      (i : Nat) (hi : i < pending.length),
      allSucceedB inv (pending.take i) = true →
      (deduct_product_stock (runDeducts inv (pending.take i))
          (pending.get ⟨i, hi⟩).product_id (pending.get ⟨i, hi⟩).quantity true).1.isOk
        = false →
      ∃ out, reserveLoop deductCall pending idx succeeded calls inv =
        (.aborted (calls ++ List.range' idx (i + 1))
          (_rollback_stock_deductions (succeeded ++ pending.take i)) out,
         runDeducts inv (pending.take i)) := by
  induction pending with
  | nil => intro inv idx succeeded calls i hi; exact absurd hi (by simp)
  | cons item rest ih =>
      intro inv idx succeeded calls i hi hall hfail
      cases i with
      | zero =>
          simp only [List.take_zero, runDeducts, List.get] at hfail ⊢
          cases hd : deduct_product_stock inv item.product_id item.quantity true with
          | mk r inv1 =>
              have hframe : inv1 = inv := by
                have := deduct_not_ok_frame inv item.product_id item.quantity true
                  (by rw [hd] at hfail ⊢; exact hfail)
                rw [hd] at this
                exact this
              cases r with
              | ok p' => rw [hd] at hfail; exact absurd hfail (by simp [DeductResult.isOk])
              | notFound =>
                  refine ⟨.badRequest ("Failed to deduct stock for product "
                    ++ toString item.product_id ++ ": "
                    ++ httpErrorDetail item.product_id 404 "Product not found"), ?_⟩
                  have hcall : deductCall idx inv item =
                      (.httpError 404 "Product not found", inv1) := by simp [deductCall, hd]
                  simp only [reserveLoop, hcall]
                  simp [List.range'_succ, hframe]
              | insufficient d =>
                  refine ⟨.badRequest ("Failed to deduct stock for product "
                    ++ toString item.product_id ++ ": "
                    ++ httpErrorDetail item.product_id 400 d), ?_⟩
                  have hcall : deductCall idx inv item =
                      (.httpError 400 d, inv1) := by simp [deductCall, hd]
                  simp only [reserveLoop, hcall]
                  simp [List.range'_succ, hframe]
              | commitFailed =>
                  refine ⟨.badRequest ("Failed to deduct stock for product "
                    ++ toString item.product_id ++ ": "
                    ++ httpErrorDetail item.product_id 500 "Could not deduct stock."), ?_⟩
                  have hcall : deductCall idx inv item =
                      (.httpError 500 "Could not deduct stock.", inv1) := by
                    simp [deductCall, hd]
                  simp only [reserveLoop, hcall]
                  simp [List.range'_succ, hframe]
      | succ i' =>
          have hi' : i' < rest.length := by simpa using Nat.lt_of_succ_lt_succ hi
          simp only [List.take_succ_cons] at hall
          cases hd : deduct_product_stock inv item.product_id item.quantity true with
          | mk r inv1 =>
              cases r with
              | ok p' =>
                  have hall' : allSucceedB inv1 (rest.take i') = true := by
                    rw [allSucceedB, hd] at hall; exact hall
                  have hfail' : (deduct_product_stock (runDeducts inv1 (rest.take i'))
                      (rest.get ⟨i', hi'⟩).product_id (rest.get ⟨i', hi'⟩).quantity
                      true).1.isOk = false := by
                    have hr : runDeducts inv (item :: rest.take i') =
                        runDeducts inv1 (rest.take i') := by rw [runDeducts, hd]
                    simpa [List.take_succ_cons, hr, List.get] using hfail
                  obtain ⟨out, hout⟩ :=
                    ih inv1 (idx + 1) (succeeded ++ [item]) (calls ++ [idx]) i' hi' hall' hfail'
                  refine ⟨out, ?_⟩
                  have hcall : deductCall idx inv item = (.success, inv1) := by
                    simp [deductCall, hd]
                  simp only [reserveLoop, hcall]
                  rw [hout]
                  rw [List.take_succ_cons, runDeducts, hd]
                  simp [List.range'_succ, List.append_assoc]
              | notFound => rw [allSucceedB, hd] at hall; exact absurd hall (by simp)
              | insufficient d => rw [allSucceedB, hd] at hall; exact absurd hall (by simp)
              | commitFailed => rw [allSucceedB, hd] at hall; exact absurd hall (by simp)

/-- Equation for a conditional decrement on a missing product. -/
theorem deduct_notFound_eq (inv : Inventory) (pid qty : Nat) (dbOk : Bool)
    (hfp : findProduct inv pid = none) :
    deduct_product_stock inv pid qty dbOk = (.notFound, inv) := by
  simp [deduct_product_stock, hfp]

/-- Equation for a conditional decrement hitting the strict less-than
guard. -/
theorem deduct_insufficient_eq (inv : Inventory) (pid qty : Nat) (dbOk : Bool)
    (p : Product) (hfp : findProduct inv pid = some p)
    (hlt : p.stock_quantity < (qty : Int)) :
    deduct_product_stock inv pid qty dbOk =
      (.insufficient (insufficientMsg p.name p.stock_quantity), inv) := by
  simp only [deduct_product_stock, hfp]
  rw [if_pos hlt]

/-- Equation for a successful conditional decrement. -/
theorem deduct_ok_eq (inv : Inventory) (pid qty : Nat) (p : Product)
    (hfp : findProduct inv pid = some p) (hle : (qty : Int) ≤ p.stock_quantity) :
    deduct_product_stock inv pid qty true =
      (.ok { p with stock_quantity := p.stock_quantity - (qty : Int) },
        updateProduct inv { p with stock_quantity := p.stock_quantity - (qty : Int) }) := by
  simp only [deduct_product_stock, hfp]
  rw [if_neg (not_lt.mpr hle), if_pos trivial]

/-- After a successful conditional decrement, the stock visible under the
requested id is the old stock minus the requested quantity. -/
theorem getStock_deduct_self (inv : Inventory) (pid qty : Nat) (p : Product)
    (hfp : findProduct inv pid = some p) (hle : (qty : Int) ≤ p.stock_quantity) :
    getStock (deduct_product_stock inv pid qty true).2 pid =
      some (p.stock_quantity - (qty : Int)) := by
  have hx : getStock inv pid = some p.stock_quantity := by rw [getStock, hfp]; rfl
  have h := getStock_deduct_ok inv pid qty _ _ (deduct_ok_eq inv pid qty p hfp hle) pid _ hx
  rw [deduct_ok_eq inv pid qty p hfp hle]
  simpa using h

/-- C5: the Inventory Authority's conditional decrement: unknown product id
gives 404 and changes nothing; a known product with stock strictly below
the requested quantity gives 400 whose detail names the available quantity,
and changes nothing; otherwise it gives 200 with the updated product, whose
new stock — also the stock now visible in the inventory — equals the old
stock minus the requested quantity. -/
theorem deduct_product_stock_contract (inv : Inventory) (pid qty : Nat) :
    (findProduct inv pid = none →
      deduct_product_stock inv pid qty true = (.notFound, inv))
    ∧ (∀ p, findProduct inv pid = some p → p.stock_quantity < (qty : Int) →
        deduct_product_stock inv pid qty true =
          (.insufficient (insufficientMsg p.name p.stock_quantity), inv))
    ∧ (∀ p, findProduct inv pid = some p → (qty : Int) ≤ p.stock_quantity →
        deduct_product_stock inv pid qty true =
          (.ok { p with stock_quantity := p.stock_quantity - (qty : Int) },
            updateProduct inv { p with stock_quantity := p.stock_quantity - (qty : Int) })
        ∧ getStock (deduct_product_stock inv pid qty true).2 pid =
            some (p.stock_quantity - (qty : Int))) :=
  ⟨fun hfp => deduct_notFound_eq inv pid qty true hfp,
   fun p hfp hlt => deduct_insufficient_eq inv pid qty true p hfp hlt,
   fun p hfp hle =>
     ⟨deduct_ok_eq inv pid qty p hfp hle, getStock_deduct_self inv pid qty p hfp hle⟩⟩

theorem deduct_product_stock_contract_witness :
    deduct_product_stock oneProductInv 2 1 true = (.notFound, oneProductInv)
    ∧ deduct_product_stock oneProductInv 1 9 true =
        (.insufficient "Insufficient stock for product \x27A\x27. Only 5 available.",
          oneProductInv)
    ∧ deduct_product_stock oneProductInv 1 3 true =
        (.ok { product_id := 1, name := "A", stock_quantity := 2 },
          [{ product_id := 1, name := "A", stock_quantity := 2 }]) := by
  refine ⟨(deduct_product_stock_contract oneProductInv 2 1).1 (by decide), ?_, ?_⟩
  · exact ((deduct_product_stock_contract oneProductInv 1 9).2.1 productA (by decide)
      (by decide)).trans (by decide)
  · exact (((deduct_product_stock_contract oneProductInv 1 3).2.2 productA (by decide)
      (by decide)).1).trans (by decide)

/-- C10: the conditional decrement preserves non-negativity of every stock
counter, on successful and failed calls alike (the guard is a strict
less-than, so stock can reach zero but not go below); in particular a
request for exactly the available quantity succeeds and leaves that
product's stock at zero. -/
theorem deduct_product_stock_nonneg (inv : Inventory) (pid qty : Nat) (dbOk : Bool) :
    ((∀ q ∈ inv, 0 ≤ q.stock_quantity) →
      ∀ q ∈ (deduct_product_stock inv pid qty dbOk).2, 0 ≤ q.stock_quantity)
    ∧ (∀ p, findProduct inv pid = some p → p.stock_quantity = (qty : Int) →
        deduct_product_stock inv pid qty true =
          (.ok { p with stock_quantity := 0 },
            updateProduct inv { p with stock_quantity := 0 })
        ∧ getStock (deduct_product_stock inv pid qty true).2 pid = some 0) := by
  constructor
  · intro hnn q hq
    cases hfp : findProduct inv pid with
    | none => rw [deduct_notFound_eq inv pid qty dbOk hfp] at hq; exact hnn q hq
    | some p =>
        by_cases hlt : p.stock_quantity < (qty : Int)
        · rw [deduct_insufficient_eq inv pid qty dbOk p hfp hlt] at hq
          exact hnn q hq
        · cases dbOk with
          | false =>
              simp only [deduct_product_stock, hfp] at hq
              rw [if_neg hlt, if_neg (by simp)] at hq
              exact hnn q hq
          | true =>
              rw [deduct_ok_eq inv pid qty p hfp (not_lt.mp hlt)] at hq
              simp only [updateProduct, List.mem_map] at hq
              obtain ⟨x, hx, hfx⟩ := hq
              by_cases hxp : (x.product_id ==
                  (({ p with stock_quantity := p.stock_quantity - (qty : Int) } :
                    Product)).product_id) = true
              · rw [if_pos hxp] at hfx
                rw [← hfx]
                have : (qty : Int) ≤ p.stock_quantity := not_lt.mp hlt
                simp only []
                omega
              · rw [if_neg (by simpa using hxp)] at hfx
                rw [← hfx]
                exact hnn x hx
  · intro p hfp heq
    have hle : (qty : Int) ≤ p.stock_quantity := le_of_eq heq.symm
    have hz : p.stock_quantity - (qty : Int) = 0 := by omega
    constructor
    · have h := deduct_ok_eq inv pid qty p hfp hle
      rw [hz] at h
      exact h
    · have h := getStock_deduct_self inv pid qty p hfp hle
      rw [hz] at h
      exact h

theorem deduct_product_stock_nonneg_witness :
    (0 : Int) ≤ (({ product_id := 1, name := "A", stock_quantity := 2 } : Product)).stock_quantity
    ∧ getStock (deduct_product_stock oneProductInv 1 5 true).2 1 = some 0 := by
  refine ⟨?_, ((deduct_product_stock_nonneg oneProductInv 1 5 true).2 productA
    (by decide) (by decide)).2⟩
  exact (deduct_product_stock_nonneg oneProductInv 1 3 true).1 (by decide)
    { product_id := 1, name := "A", stock_quantity := 2 } (by decide)

/-- C1: when every line's conditional decrement succeeds (sequentially, in
request order) and the ledger commit succeeds, exactly one order is
persisted together with one OrderItem row per request line: the order's
total_amount is the sum over all lines of quantity times price_at_purchase,
each line's item_total is that line's quantity times price_at_purchase (via
`toOrderItemRecord`), one deduct call was issued per line, and in the final
inventory every product's visible stock has gone down by exactly the total
quantity the order requested for it. -/
theorem create_order_success_spec (inv : Inventory) (ord : OrderCreate)
    (hne : ord.items ≠ []) (hall : allSucceedB inv ord.items = true) :
    (create_order_sys ord true inv).1.persisted =
      some ({ user_id := ord.user_id, shipping_address := ord.shipping_address,
              total_amount :=
                (ord.items.map (fun it => (it.quantity : Rat) * it.price_at_purchase)).sum,
              status := "confirmed" },
            ord.items.map toOrderItemRecord)
    ∧ (create_order_sys ord true inv).1.calls = List.range ord.items.length
    ∧ (∀ pid s0, getStock inv pid = some s0 →
        getStock (create_order_sys ord true inv).2 pid =
          some (s0 - qtyOf ord.items pid)) := by
  have hne' : ord.items.isEmpty = false := by
    cases h : ord.items
    · exact absurd h hne
    · simp [h]
  have hloop := reserveLoop_sys_allOk ord.items inv 0 [] [] hall
  refine ⟨?_, ?_, ?_⟩
  · simp only [create_order_sys, create_order, hne', Bool.false_eq_true, if_false, hloop]
    simp
  · simp only [create_order_sys, create_order, hne', Bool.false_eq_true, if_false, hloop]
    simp [List.range_eq_range']
  · intro pid s0 h
    have hfinal : (create_order_sys ord true inv).2 = runDeducts inv ord.items := by
      simp only [create_order_sys, create_order, hne', Bool.false_eq_true, if_false, hloop]
      rw [if_pos trivial]
    rw [hfinal]
    exact getStock_runDeducts ord.items inv hall pid s0 h

theorem create_order_success_spec_witness :
    (create_order_sys twoLineOrder true twoProductInv).1.persisted =
      some ({ user_id := 1, shipping_address := "addr",
              total_amount := 35, status := "confirmed" },
            [{ product_id := 1, quantity := 2, price_at_purchase := 10, item_total := 20 },
             { product_id := 2, quantity := 5, price_at_purchase := 3, item_total := 15 }])
    ∧ getStock (create_order_sys twoLineOrder true twoProductInv).2 1 = some 3
    ∧ getStock (create_order_sys twoLineOrder true twoProductInv).2 2 = some 4 := by
  have h := create_order_success_spec twoProductInv twoLineOrder (by decide) (by decide)
  refine ⟨h.1.trans ?_, (h.2.2 1 5 (by decide)).trans (by decide),
    (h.2.2 2 9 (by decide)).trans (by decide)⟩
  simp only [twoLineOrder, toOrderItemRecord, List.map_cons, List.map_nil, List.sum_cons,
    List.sum_nil, Option.some.injEq, Prod.mk.injEq]
  norm_num

/-- C3: on any saga abort after `i` successful reservations (the decrement
of line `i` fails against the inventory the first `i` decrements produced),
compensation changes no stock: the final inventory is exactly the one the
`i` successful decrements produced, so each already-deducted product stays
decremented by what the succeeded prefix requested; the compensation log
records exactly that prefix's (product id, quantity) pairs, and nothing is
persisted.  (`_rollback_stock_deductions` issues no call to the product
service at all: its type consumes and produces no inventory.) -/
theorem compensation_restores_no_stock (inv : Inventory) (ord : OrderCreate)
    (orderDbOk : Bool) (i : Nat) (hi : i < ord.items.length)
    (hall : allSucceedB inv (ord.items.take i) = true)
    (hfail : (deduct_product_stock (runDeducts inv (ord.items.take i))
        (ord.items.get ⟨i, hi⟩).product_id (ord.items.get ⟨i, hi⟩).quantity true).1.isOk
        = false) :
    (create_order_sys ord orderDbOk inv).2 = runDeducts inv (ord.items.take i)
    ∧ (create_order_sys ord orderDbOk inv).1.compLog =
        _rollback_stock_deductions (ord.items.take i)
    ∧ (create_order_sys ord orderDbOk inv).1.persisted = none
    ∧ (∀ pid s0, getStock inv pid = some s0 →
        getStock (create_order_sys ord orderDbOk inv).2 pid =
          some (s0 - qtyOf (ord.items.take i) pid)) := by
  have hne' : ord.items.isEmpty = false := by
    cases h : ord.items
    · rw [h] at hi; simp at hi
    · simp [h]
  obtain ⟨out, hloop⟩ := reserveLoop_sys_abort ord.items inv 0 [] [] i hi hall hfail
  have hfinal : (create_order_sys ord orderDbOk inv).2 = runDeducts inv (ord.items.take i) := by
    simp only [create_order_sys, create_order, hne', Bool.false_eq_true, if_false, hloop]
  refine ⟨hfinal, ?_, ?_, ?_⟩
  · simp only [create_order_sys, create_order, hne', Bool.false_eq_true, if_false, hloop]
    rw [List.nil_append]
  · simp only [create_order_sys, create_order, hne', Bool.false_eq_true, if_false, hloop]
  · intro pid s0 h
    rw [hfinal]
    exact getStock_runDeducts (ord.items.take i) inv hall pid s0 h

theorem compensation_restores_no_stock_witness :
    (create_order_sys twoLineOrder true lowStockInv).2 =
      [{ product_id := 1, name := "A", stock_quantity := 3 },
       { product_id := 2, name := "B", stock_quantity := 1 }]
    ∧ (create_order_sys twoLineOrder true lowStockInv).1.compLog = [(1, 2)]
    ∧ (create_order_sys twoLineOrder true lowStockInv).1.persisted = none
    ∧ getStock (create_order_sys twoLineOrder true lowStockInv).2 1 = some 3 := by
  have h := compensation_restores_no_stock lowStockInv twoLineOrder true 1
    (by decide) (by decide) (by decide)
  refine ⟨h.1.trans (by decide), h.2.1.trans (by decide), h.2.2.1, ?_⟩
  exact (h.2.2.2 1 5 (by decide)).trans (by decide)

/-- Overwriting the status of the order found under an id makes that id's
visible ledger entry carry the new status. -/
theorem find_after_status_update (oid : Nat) (st : String)
    (orders : List (Nat × OrderRecord)) :
    ∀ e, orders.find? (fun x => x.1 == oid) = some e →
      (orders.map (fun x =>
          if x.1 == oid then (x.1, { x.2 with status := st }) else x)).find?
        (fun x => x.1 == oid) = some (e.1, { e.2 with status := st }) := by
  induction orders with
  | nil => intro e h; simp at h
  | cons a rest ih =>
      intro e h
      by_cases ha : a.1 = oid
      · have hb : (a.1 == oid) = true := by simp [ha]
        rw [List.find?_cons_of_pos _ (by simpa using hb)] at h
        have he : a = e := by simpa using h
        subst he
        simp only [List.map_cons, if_pos hb]
        exact List.find?_cons_of_pos _ (by simpa using hb)
      · have hb : (a.1 == oid) = false := by
          simp only [beq_eq_false_iff_ne]; exact ha
        rw [List.find?_cons_of_neg _ (by simp [hb])] at h
        simp only [List.map_cons, hb, Bool.false_eq_true, if_false]
        rw [List.find?_cons_of_neg _ (by simp [hb])]
        exact ih e h

/-- C9: the creation path persists an order only with status `confirmed`:
`pending` is set only on the uncommitted in-memory record, and the same
record is switched to `confirmed` before the commit, for every transport
and every ledger-commit outcome.  A stored `pending` order is reachable
only through the explicit status-update endpoint, which overwrites the
status of any existing order with the caller-supplied string (such as
`pending`). -/
theorem order_status_pending_only_transient :
    (∀ (S : Type) (call : Nat → S → OrderItemCreate → CallResult × S)
        (ord : OrderCreate) (orderDbOk : Bool) (s : S) (o : OrderRecord)
        (its : List OrderItemRecord),
        (create_order call ord orderDbOk s).1.persisted = some (o, its) →
        o.status = "confirmed")
    ∧ (∀ (orders : List (Nat × OrderRecord)) (oid : Nat) (st : String)
        (e : Nat × OrderRecord),
        orders.find? (fun x => x.1 == oid) = some e →
        ∃ os, update_order_status orders oid st = .ok os
          ∧ os.find? (fun x => x.1 == oid) = some (oid, { e.2 with status := st })) := by
  constructor
  · intro S call ord orderDbOk s o its h
    by_cases hne : ord.items.isEmpty
    · rw [create_order, if_pos hne] at h
      simp at h
    · rw [create_order, if_neg hne] at h
      rcases hloop : reserveLoop call ord.items 0 [] [] s with ⟨lr, s'⟩
      rw [hloop] at h
      cases lr with
      | aborted calls log out => simp at h
      | allOk calls succ =>
          cases orderDbOk with
          | false => simp at h
          | true =>
              simp only [if_pos trivial, Option.some.injEq, Prod.mk.injEq] at h
              rw [← h.1]
  · intro orders oid st e hfind
    have he1 : e.1 = oid := by
      have := List.find?_some hfind
      simpa using this
    refine ⟨orders.map (fun x =>
      if x.1 == oid then (x.1, { x.2 with status := st }) else x), ?_, ?_⟩
    · simp only [update_order_status, hfind]
    · rw [find_after_status_update oid st orders e hfind, he1]

theorem order_status_pending_only_transient_witness :
    ({ user_id := 1, shipping_address := "addr", total_amount := (35 : Rat),
       status := "confirmed" } : OrderRecord).status = "confirmed"
    ∧ ∃ os, update_order_status
          [(3, { user_id := 1, shipping_address := "addr", total_amount := (35 : Rat),
                 status := "confirmed" })] 3 "pending" = .ok os
        ∧ os.find? (fun x => x.1 == 3) =
            some (3, { user_id := 1, shipping_address := "addr",
                       total_amount := (35 : Rat), status := "pending" }) := by
  constructor
  · have hloop := reserveLoop_sys_allOk twoLineOrder.items twoProductInv 0 [] [] (by decide)
    have hne' : twoLineOrder.items.isEmpty = false := by decide
    have hp : (create_order deductCall twoLineOrder true twoProductInv).1.persisted =
        some ({ user_id := 1, shipping_address := "addr", total_amount := (35 : Rat),
                status := "confirmed" },
              [{ product_id := 1, quantity := 2, price_at_purchase := 10, item_total := 20 },
               { product_id := 2, quantity := 5, price_at_purchase := 3, item_total := 15 }]) := by
      simp only [create_order, hne', Bool.false_eq_true, if_false, hloop]
      simp [twoLineOrder, toOrderItemRecord]
      norm_num
    exact order_status_pending_only_transient.1 Inventory deductCall twoLineOrder true
      twoProductInv _ _ hp
  · exact order_status_pending_only_transient.2
      [(3, { user_id := 1, shipping_address := "addr", total_amount := (35 : Rat),
             status := "confirmed" })] 3 "pending" _ rfl

end Week08
